import Mathlib

/-!
Verification of the AWS request-signing mutator
(`src/proxy/middleware/request/mutators/sign-aws-request.ts`).

The development shallowly embeds the data model and operations of the mutator:

* `getCredentialParts` — parses the composite secret `AK:SK:region`;
* `getStrictlyValidatedBodyForAws` — per-dialect strict body sanitization;
* `chooseResourceId` — inference-profile / model-id selection
  (`key.inferenceProfileIds.find((p) => p.includes(model)) || model`);
* `buildAwsRequest` — the unsigned `HttpRequest` constructed by the mutator;
* an AWS Signature-Version-4 model (`computeSignature`,
  `authorizationHeader`) for the external `SignatureV4` signer, modelled
  from the specification with the cryptographic digest and keyed hash kept
  abstract.

JavaScript bodies are embedded as ordered association lists of JSON
values; `undefined` and the empty string coincide under JavaScript
truthiness tests, which the credential parser relies on, so missing
split segments are embedded as `""`.
-/

/-- A JSON value, as far as the schemas of the mutator inspect one. -/
inductive JsonValue where
  | str (s : String)
  | num (n : Int)
  | bool (b : Bool)
  | arr (elems : List JsonValue)
  | obj (fields : List (String × JsonValue))

/-- A request body: a JavaScript object as an ordered list of fields. -/
abbrev Body := List (String × JsonValue)

/-- Errors raised by the mutator.  `configurationError` models the error
thrown for a malformed credential (it carries exactly what the code
reports: the non-secret hash of the key, which is logged, and the thrown
message); `validationError` models a zod validation failure carrying the
offending field; `unsupportedDialect` models the `default:` throw. -/
inductive SignError where
  | configurationError (loggedHash : String) (message : String)
  | validationError (field : String)
  | unsupportedDialect (message : String)
  deriving Repr, DecidableEq

/-- Splitting a character list at every occurrence of a separator
character; the result always has one more chunk than there are
separator occurrences. -/
def splitChars (sep : Char) : List Char → List (List Char)
  | [] => [[]]
  | c :: cs =>
    match splitChars sep cs with
    | [] => [[]]
    | h :: t => if c = sep then [] :: h :: t else (c :: h) :: t

/-- Embedding of JavaScript `s.split(sep)` for a one-character separator,
as used by `req.key!.key.split(":")`. -/
def jsSplit (s : String) (sep : Char) : List String :=
  (splitChars sep s.toList).map String.mk

/-- First value bound to key `k` in a JavaScript object, embedded as an
ordered field list. -/
def lookupField (k : String) : Body → Option JsonValue
  | [] => none
  | (k1, v) :: rest => if k1 = k then some v else lookupField k rest

/-- The keys of a body, in order. -/
def bodyKeys (b : Body) : List String := b.map Prod.fst

/-- Keep exactly the fields whose key is in the allow-list, in order: the
effect of the zod chain `.pick {...}).strip().parse` on the retained
keys. -/
def projectKeys (allow : List String) : Body → Body
  | [] => []
  | (k1, v) :: rest =>
    if allow.contains k1 then (k1, v) :: projectKeys allow rest
    else projectKeys allow rest

/-- The structured credential produced by `getCredentialParts`. -/
structure Credential where
  accessKeyId : String
  secretAccessKey : String
  region : String
  deriving Repr, DecidableEq

/-- Embedding of `getCredentialParts`: split the composite secret on `:`,
destructure the first three segments (a missing segment, JavaScript
`undefined`, is as falsy as `""` and is embedded as `""`), and reject if
any of the three is falsy.  The error carries only the hash of the key (the
logged object `{ key: req.key!.hash }`) and the fixed thrown message. -/
def getCredentialParts (secret keyHash : String) : Except SignError Credential :=
  let parts := jsSplit secret ':'
  let accessKeyId := parts.getD 0 ""
  let secretAccessKey := parts.getD 1 ""
  let region := parts.getD 2 ""
  if accessKeyId = "" ∨ secretAccessKey = "" ∨ region = "" then
    .error (.configurationError keyHash "The key assigned to this request is invalid.")
  else
    .ok ⟨accessKeyId, secretAccessKey, region⟩

/-- Value predicate: the value is a JSON string. -/
def isStr : JsonValue → Bool
  | .str _ => true
  | _ => false

/-- Value predicate: the value is a JSON number. -/
def isNum : JsonValue → Bool
  | .num _ => true
  | _ => false

/-- Value predicate: the value is a JSON boolean. -/
def isBool : JsonValue → Bool
  | .bool _ => true
  | _ => false

/-- Value predicate: the value is a JSON array. -/
def isArr : JsonValue → Bool
  | .arr _ => true
  | _ => false

/-- Value predicate: the value is a JSON array of strings. -/
def isStrArr : JsonValue → Bool
  | .arr elems => elems.all isStr
  | _ => false

/-- A required schema field: absent or ill-typed fields yield a
`validationError` carrying the offending field name. -/
def checkReq (b : Body) (k : String) (p : JsonValue → Bool) : Except SignError Unit :=
  match lookupField k b with
  | none => .error (.validationError k)
  | some v => if p v then .ok () else .error (.validationError k)

/-- An optional schema field: present but ill-typed fields yield a
`validationError` carrying the offending field name. -/
def checkOpt (b : Body) (k : String) (p : JsonValue → Bool) : Except SignError Unit :=
  match lookupField k b with
  | none => .ok ()
  | some v => if p v then .ok () else .error (.validationError k)

/-- The allow-list picked from `AnthropicV1TextSchema`. -/
def anthropicTextKeys : List String :=
  ["prompt", "max_tokens_to_sample", "stop_sequences", "temperature", "top_k", "top_p"]

/-- The allow-list picked from `AnthropicV1MessagesSchema`. -/
def anthropicChatKeys : List String :=
  ["messages", "system", "max_tokens", "stop_sequences", "temperature", "top_k", "top_p"]

/-- Modelled from the spec: the field validation performed by
`AnthropicV1TextSchema.pick {...}` (the schema lives in
`shared/api-schemas`, outside the provided source).  The picked schema
validates only allow-listed fields: `prompt` is the required text input,
the remaining sampling parameters are optional and type-checked. -/
def validateAnthropicTextPicked (b : Body) : Except SignError Unit := do
  checkReq b "prompt" isStr
  checkReq b "max_tokens_to_sample" isNum
  checkOpt b "stop_sequences" isStrArr
  checkOpt b "temperature" isNum
  checkOpt b "top_k" isNum
  checkOpt b "top_p" isNum

/-- Modelled from the spec: the field validation performed by
`AnthropicV1MessagesSchema.pick {...}` (the schema lives in
`shared/api-schemas`, outside the provided source).  Following the
end-to-end example of the spec — a chat body of only `messages` and
`temperature` parses successfully — `messages` is the sole required
field; the others are optional and type-checked. -/
def validateAnthropicChatPicked (b : Body) : Except SignError Unit := do
  checkReq b "messages" isArr
  checkOpt b "system" isStr
  checkOpt b "max_tokens" isNum
  checkOpt b "stop_sequences" isStrArr
  checkOpt b "temperature" isNum
  checkOpt b "top_k" isNum
  checkOpt b "top_p" isNum

/-- The keys admitted by the strict `AWSMistralV1ChatCompletionsSchema`,
modelled from the spec (the schema lives in
`shared/api-schemas/mistral-ai`, outside the provided source). -/
def mistralChatKeys : List String :=
  ["model", "messages", "temperature", "top_p", "max_tokens", "stream", "stop",
   "random_seed", "safe_prompt"]

/-- The keys admitted by the strict `AWSMistralV1TextCompletionsSchema`,
modelled from the spec (the schema lives in
`shared/api-schemas/mistral-ai`, outside the provided source). -/
def mistralTextKeys : List String :=
  ["model", "prompt", "temperature", "top_p", "max_tokens", "stop"]

/-- Modelled from the spec: a strict schema rejects, rather than strips,
any field outside its own key set, reporting the offending field. -/
def strictKeysCheck (allow : List String) (b : Body) : Except SignError Unit :=
  match b.find? (fun kv => !(allow.contains kv.1)) with
  | some kv => .error (.validationError kv.1)
  | none => .ok ()

/-- Modelled from the spec: field validation of
`AWSMistralV1ChatCompletionsSchema` — `messages` required, the sampling
parameters optional and type-checked. -/
def validateMistralChatFields (b : Body) : Except SignError Unit := do
  checkReq b "messages" isArr
  checkOpt b "model" isStr
  checkOpt b "temperature" isNum
  checkOpt b "top_p" isNum
  checkOpt b "max_tokens" isNum
  checkOpt b "stream" isBool
  checkOpt b "stop" isStrArr
  checkOpt b "random_seed" isNum
  checkOpt b "safe_prompt" isBool

/-- Modelled from the spec: field validation of
`AWSMistralV1TextCompletionsSchema` — `prompt` required, the sampling
parameters optional and type-checked. -/
def validateMistralTextFields (b : Body) : Except SignError Unit := do
  checkReq b "prompt" isStr
  checkOpt b "model" isStr
  checkOpt b "temperature" isNum
  checkOpt b "top_p" isNum
  checkOpt b "max_tokens" isNum
  checkOpt b "stop" isStrArr

/-- The constant injected for the chat dialect:
`strippedParams.anthropic_version = "bedrock-2023-05-31"`. -/
def anthropicVersionValue : JsonValue := .str "bedrock-2023-05-31"

/-- Embedding of `getStrictlyValidatedBodyForAws`: the `switch` on
`req.outboundApi`.  The anthropic branches validate the picked fields and
strip everything outside the allow-list of the pick; the chat branch then
assigns the constant `anthropic_version` field (appended, since the
allow-list can never retain such a field for it to overwrite).  The
mistral branches parse against the separate strict schemas of that family, and the
`default` branch throws. -/
def getStrictlyValidatedBodyForAws (outboundApi : String) (body : Body) :
    Except SignError Body :=
  if outboundApi = "anthropic-text" then do
    validateAnthropicTextPicked body
    .ok (projectKeys anthropicTextKeys body)
  else if outboundApi = "anthropic-chat" then do
    validateAnthropicChatPicked body
    .ok (projectKeys anthropicChatKeys body ++ [("anthropic_version", anthropicVersionValue)])
  else if outboundApi = "mistral-ai" then do
    strictKeysCheck mistralChatKeys body
    validateMistralChatFields body
    .ok body
  else if outboundApi = "mistral-text" then do
    strictKeysCheck mistralTextKeys body
    validateMistralTextFields body
    .ok body
  else
    .error (.unsupportedDialect "Unexpected outbound API for AWS.")

/-- Does `pat` occur at the start of the character list `s`? -/
def charsStartWith : List Char → List Char → Bool
  | [], _ => true
  | _ :: _, [] => false
  | a :: as, b :: bs => a = b && charsStartWith as bs

/-- Does `pat` occur anywhere inside the character list `s`? -/
def charsContain (pat : List Char) : List Char → Bool
  | [] => pat.isEmpty
  | c :: cs => charsStartWith pat (c :: cs) || charsContain pat cs

/-- Embedding of JavaScript `s.includes(pat)`: substring containment. -/
def strContains (s pat : String) : Bool :=
  charsContain pat.toList s.toList

/-- Embedding of the orchestrator resource-identifier selection,
`key.inferenceProfileIds.find((p) => p.includes(model)) || model`: the
first inference profile containing the model id, with the JavaScript
falsy fallback to the model id when `find` yields `undefined` (or the
found profile is the empty string, which is falsy). -/
def chooseResourceId (inferenceProfileIds : List String) (model : String) : String :=
  match inferenceProfileIds.find? (fun p => strContains p model) with
  | some p => if p = "" then model else p
  | none => model

/-- The default `AMZ_HOST` template (the environment override is
external configuration). -/
def amzHostTemplate : String := "bedrock-runtime.%REGION%.amazonaws.com"

/-- The host produced by `AMZ_HOST.replace("%REGION%", credential.region)`. -/
def awsHost (region : String) : String :=
  "bedrock-runtime." ++ region ++ ".amazonaws.com"

/-- The `HttpRequest` constructed by the mutator before signing. -/
structure HttpRequest where
  method : String
  protocol : String
  hostname : String
  path : String
  headers : List (String × String)
  body : String
  deriving Repr, DecidableEq

/-- The slice of the proxied Express request that the mutator reads:
the parsed body with its `model` and `stream` fields, the outbound API
tag, and the composite secret of the assigned key, non-secret hash, and
inference profile ids. -/
structure ProxyRequest where
  model : String
  stream : Bool
  outboundApi : String
  body : Body
  keySecret : String
  keyHash : String
  inferenceProfileIds : List String

/-- First value bound to a header name. -/
def lookupHeader (name : String) : List (String × String) → Option String
  | [] => none
  | (n, v) :: rest => if n = name then some v else lookupHeader name rest

/-- Is a header with this exact name present? -/
def hasHeader (r : HttpRequest) (name : String) : Bool :=
  (lookupHeader name r.headers).isSome

/-- Embedding of the request construction in `signAwsRequest`: extract
the credential, substitute the region into the host template, choose the
resource identifier, sanitize the body, and assemble the `HttpRequest`
with the streaming-dependent path suffix and accept header.  Body
serialization (`JSON.stringify`) belongs to the JavaScript runtime, kept
abstract as the `stringify` parameter. -/
def buildAwsRequest (stringify : Body → String) (req : ProxyRequest) :
    Except SignError HttpRequest := do
  let credential ← getCredentialParts req.keySecret req.keyHash
  let host := awsHost credential.region
  let profile := chooseResourceId req.inferenceProfileIds req.model
  let sanitized ← getStrictlyValidatedBodyForAws req.outboundApi req.body
  let baseHeaders := [("Host", host), ("content-type", "application/json")]
  .ok
    { method := "POST"
      protocol := "https:"
      hostname := host
      path := "/model/" ++ profile ++ "/invoke" ++
        (if req.stream then "-with-response-stream" else "")
      headers := baseHeaders ++
        (if req.stream then [("x-amzn-bedrock-accept", "application/json")]
         else [("accept", "*/*")])
      body := stringify sanitized }

/-- Modelled from the spec: the canonical request of the external signer —
method, canonical path, canonical (empty) query string, canonical header
lines, signed header names, and the content hash of the exact body
bytes, newline-separated.  The digest is abstract (`hash`). -/
def canonicalRequest (hash : String → String)
    (method path query headerLines signedHeaders body : String) : String :=
  method ++ "\n" ++ path ++ "\n" ++ query ++ "\n" ++ headerLines ++ "\n" ++
    signedHeaders ++ "\n" ++ hash body

/-- Modelled from the spec: the credential scope
`date/region/service/terminator`, with the fixed service `bedrock`. -/
def credentialScope (date region : String) : String :=
  date ++ "/" ++ region ++ "/bedrock/aws4_request"

/-- Modelled from the spec: the string-to-sign — algorithm identifier,
timestamp, credential scope, and the digest of the canonical request. -/
def stringToSign (hash : String → String) (timestamp scope canonReq : String) : String :=
  "AWS4-HMAC-SHA256" ++ "\n" ++ timestamp ++ "\n" ++ scope ++ "\n" ++ hash canonReq

/-- Modelled from the spec: the signing-key derivation chain — repeated
keyed hashing from the secret access key through date, region, service
and the fixed terminator.  The keyed hash is abstract (`hmac`). -/
def deriveSigningKey (hmac : String → String → String)
    (secretAccessKey date region : String) : String :=
  hmac (hmac (hmac (hmac ("AWS4" ++ secretAccessKey) date) region) "bedrock") "aws4_request"

/-- Modelled from the spec: the request signature — the keyed hash of the
string-to-sign under the derived signing key. -/
def computeSignature (hash : String → String) (hmac : String → String → String)
    (cred : Credential) (date timestamp method path query headerLines signedHeaders body :
      String) : String :=
  hmac (deriveSigningKey hmac cred.secretAccessKey date cred.region)
    (stringToSign hash timestamp (credentialScope date cred.region)
      (canonicalRequest hash method path query headerLines signedHeaders body))

/-- Modelled from the spec: the emitted `Authorization` header —
algorithm, credential scope, signed-header list, and signature. -/
def authorizationHeader (hash : String → String) (hmac : String → String → String)
    (cred : Credential) (date timestamp method path query headerLines signedHeaders body :
      String) : String :=
  "AWS4-HMAC-SHA256 Credential=" ++ cred.accessKeyId ++ "/" ++
    credentialScope date cred.region ++ ", SignedHeaders=" ++ signedHeaders ++
    ", Signature=" ++
    computeSignature hash hmac cred date timestamp method path query headerLines
      signedHeaders body

/-- Modelled from the spec: the per-field type predicate of the strict
mistral chat schema, agreeing with `validateMistralChatFields` field by
field; keys outside the schema carry no type constraint (they are
extraneous instead). -/
def mistralChatFieldType (k : String) (v : JsonValue) : Bool :=
  if k = "messages" then isArr v
  else if k = "model" then isStr v
  else if k = "temperature" then isNum v
  else if k = "top_p" then isNum v
  else if k = "max_tokens" then isNum v
  else if k = "stream" then isBool v
  else if k = "stop" then isStrArr v
  else if k = "random_seed" then isNum v
  else if k = "safe_prompt" then isBool v
  else true

/-- Modelled from the spec: the per-field type predicate of the strict
mistral text schema, agreeing with `validateMistralTextFields` field by
field; keys outside the schema carry no type constraint (they are
extraneous instead). -/
def mistralTextFieldType (k : String) (v : JsonValue) : Bool :=
  if k = "prompt" then isStr v
  else if k = "model" then isStr v
  else if k = "temperature" then isNum v
  else if k = "top_p" then isNum v
  else if k = "max_tokens" then isNum v
  else if k = "stop" then isStrArr v
  else true

/-- Does the outcome carry a zod validation failure? -/
def isValidationError {α : Type} : Except SignError α → Bool
  | .error (.validationError _) => true
  | _ => false

/-- A concrete streaming request used to witness the request-builder
theorems: text dialect, valid body, credential `a:b:c`, no inference
profiles. -/
def sampleStreamingRequest : ProxyRequest :=
  { model := "m1"
    stream := true
    outboundApi := "anthropic-text"
    body := [("prompt", .str "p"), ("max_tokens_to_sample", .num 5)]
    keySecret := "a:b:c"
    keyHash := "h"
    inferenceProfileIds := [] }

/-- The request `buildAwsRequest` constructs from
`sampleStreamingRequest` under the empty serializer. -/
def sampleStreamingBuilt : HttpRequest :=
  { method := "POST"
    protocol := "https:"
    hostname := "bedrock-runtime.c.amazonaws.com"
    path := "/model/m1/invoke-with-response-stream"
    headers := [("Host", "bedrock-runtime.c.amazonaws.com"),
                ("content-type", "application/json"),
                ("x-amzn-bedrock-accept", "application/json")]
    body := "" }

/-- An injective stand-in for the abstract digest, used to witness the
signer theorem. -/
def idHash (s : String) : String := s

/-- An injective-per-key stand-in for the abstract keyed hash, used to
witness the signer theorem. -/
def tagHmac (k m : String) : String := k ++ ":" ++ m

/-- A list whose nonempty entries number fewer than three has an empty
entry (or none at all) among its first three positions. -/
lemma filter_short_getD (l : List String)
    (h : (l.filter (fun t => t != "")).length < 3) :
    l.getD 0 "" = "" ∨ l.getD 1 "" = "" ∨ l.getD 2 "" = "" := by
  match l with
  | [] => exact Or.inl rfl
  | [a] => exact Or.inr (Or.inl rfl)
  | [a, b] => exact Or.inr (Or.inr rfl)
  | a :: b :: c :: rest =>
    by_contra hc
    push_neg at hc
    obtain ⟨h0, h1, h2⟩ := hc
    simp only [List.getD_cons_zero, List.getD_cons_succ] at h0 h1 h2
    rw [List.filter_cons_of_pos (by simpa using h0),
        List.filter_cons_of_pos (by simpa using h1),
        List.filter_cons_of_pos (by simpa using h2)] at h
    simp only [List.length_cons] at h
    omega

/-- A composite secret whose first three split segments are nonempty
parses to exactly those segments, whatever follows them. -/
lemma getCredentialParts_ok_aux (s keyHash ak sk r : String) (rest : List String)
    (hsplit : jsSplit s ':' = ak :: sk :: r :: rest)
    (hak : ak ≠ "") (hsk : sk ≠ "") (hr : r ≠ "") :
    getCredentialParts s keyHash = .ok ⟨ak, sk, r⟩ := by
  simp only [getCredentialParts, hsplit, List.getD_cons_zero, List.getD_cons_succ]
  rw [if_neg]
  simp [hak, hsk, hr]

/-- Claim C2: a composite secret splitting into exactly three nonempty
segments yields precisely that credential; fewer than three nonempty
segments always yield the configuration error; and a returned credential
never has an empty field. -/
theorem getCredentialParts_spec :
    (∀ s keyHash ak sk r, jsSplit s ':' = [ak, sk, r] →
      ak ≠ "" → sk ≠ "" → r ≠ "" →
      getCredentialParts s keyHash = .ok ⟨ak, sk, r⟩) ∧
    (∀ s keyHash, ((jsSplit s ':').filter (fun t => t != "")).length < 3 →
      getCredentialParts s keyHash =
        .error (.configurationError keyHash
          "The key assigned to this request is invalid.")) ∧
    (∀ s keyHash c, getCredentialParts s keyHash = .ok c →
      c.accessKeyId ≠ "" ∧ c.secretAccessKey ≠ "" ∧ c.region ≠ "") := by
  refine ⟨?_, ?_, ?_⟩
  · intro s keyHash ak sk r hsplit hak hsk hr
    exact getCredentialParts_ok_aux s keyHash ak sk r [] hsplit hak hsk hr
  · intro s keyHash hlen
    rcases filter_short_getD (jsSplit s ':') hlen with h | h | h
    · simp only [getCredentialParts]
      rw [if_pos (Or.inl h)]
    · simp only [getCredentialParts]
      rw [if_pos (Or.inr (Or.inl h))]
    · simp only [getCredentialParts]
      rw [if_pos (Or.inr (Or.inr h))]
  · intro s keyHash c
    simp only [getCredentialParts]
    split
    · intro h
      simp at h
    · intro h
      injection h with h1
      subst h1
      rename_i hcond
      push_neg at hcond
      exact ⟨hcond.1, hcond.2.1, hcond.2.2⟩

/-- Witness for C2 at the concrete secret `AK:SK:us-east-1`. -/
theorem getCredentialParts_spec_witness :
    getCredentialParts "AK:SK:us-east-1" "fingerprint" =
      .ok ⟨"AK", "SK", "us-east-1"⟩ :=
  getCredentialParts_spec.1 "AK:SK:us-east-1" "fingerprint" "AK" "SK" "us-east-1"
    rfl (by decide) (by decide) (by decide)

/-- Claim C9: the failure report of credential extraction is a constant
message together with the non-secret hash only — it is the same whatever
the malformed secret was, so neither the composite secret nor the secret
access key can occur in it as data. -/
theorem credential_error_mentions_only_hash :
    ∀ s keyHash e, getCredentialParts s keyHash = .error e →
      e = .configurationError keyHash
        "The key assigned to this request is invalid." := by
  intro s keyHash e
  simp only [getCredentialParts]
  split
  · intro h
    injection h with h1
    exact h1.symm
  · intro h
    simp at h

/-- Witness for C9 at the concrete malformed secret `bad`. -/
theorem credential_error_mentions_only_hash_witness :
    SignError.configurationError "h0" "The key assigned to this request is invalid." =
      .configurationError "h0" "The key assigned to this request is invalid." :=
  credential_error_mentions_only_hash "bad" "h0"
    (.configurationError "h0" "The key assigned to this request is invalid.") rfl

/-- Claim C10: when the composite secret splits into three nonempty
segments followed by extra ones, extraction still succeeds and the extra
segments are silently discarded; in particular `a:b:c:d` yields the
region `c` and drops `d`. -/
theorem extra_segments_ignored :
    (∀ s keyHash ak sk r rest, jsSplit s ':' = ak :: sk :: r :: rest →
      ak ≠ "" → sk ≠ "" → r ≠ "" →
      getCredentialParts s keyHash = .ok ⟨ak, sk, r⟩) ∧
    getCredentialParts "a:b:c:d" "h" = .ok ⟨"a", "b", "c"⟩ :=
  ⟨fun s keyHash ak sk r rest h1 h2 h3 h4 =>
    getCredentialParts_ok_aux s keyHash ak sk r rest h1 h2 h3 h4, rfl⟩

/-- Witness for C10 at the concrete secret `w:x:y:z`. -/
theorem extra_segments_ignored_witness :
    getCredentialParts "w:x:y:z" "hh" = .ok ⟨"w", "x", "y"⟩ :=
  extra_segments_ignored.1 "w:x:y:z" "hh" "w" "x" "y" ["z"]
    rfl (by decide) (by decide) (by decide)

/-- Bind of a successful `Except` computation. -/
@[simp] lemma exbind_ok {α β : Type} (a : α) (f : α → Except SignError β) :
    (Except.ok a >>= f) = f a := rfl

/-- Bind of a failed `Except` computation propagates the error. -/
@[simp] lemma exbind_error {α β : Type} (e : SignError) (f : α → Except SignError β) :
    ((Except.error e : Except SignError α) >>= f) = Except.error e := rfl

/-- The empty string contains only the empty string. -/
lemma strContains_empty_left (model : String) (h : strContains "" model = true) :
    model = "" := by
  have hdata : model.data = [] := by
    have : model.toList.isEmpty = true := by
      simpa [strContains, charsContain] using h
    simpa [String.toList, List.isEmpty_iff] using this
  exact String.ext hdata

/-- The first profile containing the model id is selected, whatever
precedes (all non-matching) or follows it. -/
lemma chooseResourceId_first_match (l1 : List String) (p : String) (l2 : List String)
    (model : String) (hall : ∀ q ∈ l1, strContains q model = false)
    (hp : strContains p model = true) :
    chooseResourceId (l1 ++ p :: l2) model = p := by
  induction l1 with
  | nil =>
    have hfind : (p :: l2).find? (fun q => strContains q model) = some p :=
      List.find?_cons_of_pos l2 hp
    simp only [List.nil_append, chooseResourceId, hfind]
    by_cases hpe : p = ""
    · subst hpe
      rw [if_pos rfl]
      exact strContains_empty_left model hp
    · rw [if_neg hpe]
  | cons a l1 ih =>
    have ha : ¬ strContains a model = true := by
      simp [hall a (List.mem_cons_self a l1)]
    have hfind : ((a :: (l1 ++ p :: l2)).find? (fun q => strContains q model)) =
        (l1 ++ p :: l2).find? (fun q => strContains q model) :=
      List.find?_cons_of_neg (l1 ++ p :: l2) ha
    have hrec := ih (fun q hq => hall q (List.mem_cons_of_mem a hq))
    simp only [chooseResourceId] at hrec ⊢
    rw [List.cons_append, hfind]
    exact hrec

/-- With no matching profile the model id is used verbatim. -/
lemma chooseResourceId_no_match (profiles : List String) (model : String)
    (hall : ∀ q ∈ profiles, strContains q model = false) :
    chooseResourceId profiles model = model := by
  have hfind : profiles.find? (fun q => strContains q model) = none :=
    List.find?_eq_none.mpr (fun q hq => by simp [hall q hq])
  simp [chooseResourceId, hfind]

/-- Claim C5: any outbound API tag other than the four supported dialects
makes the sanitizer fail with the unsupported-dialect error, for every
body. -/
theorem unsupported_dialect_always_errors :
    ∀ (outboundApi : String) (body : Body),
      outboundApi ≠ "anthropic-text" → outboundApi ≠ "anthropic-chat" →
      outboundApi ≠ "mistral-ai" → outboundApi ≠ "mistral-text" →
      getStrictlyValidatedBodyForAws outboundApi body =
        .error (.unsupportedDialect "Unexpected outbound API for AWS.") := by
  intro api b h1 h2 h3 h4
  simp [getStrictlyValidatedBodyForAws, h1, h2, h3, h4]

/-- Witness for C5 at the concrete tag `openai`. -/
theorem unsupported_dialect_witness :
    getStrictlyValidatedBodyForAws "openai" [] =
      .error (.unsupportedDialect "Unexpected outbound API for AWS.") :=
  unsupported_dialect_always_errors "openai" []
    (by decide) (by decide) (by decide) (by decide)

/-- Claim C3: the chosen resource identifier is the first inference
profile textually containing the model id when one exists, and the model
id verbatim otherwise; the two concrete instances of the spec hold; and
the chosen identifier is embedded unchanged in the built request path. -/
theorem resource_identifier_selection :
    (∀ l1 p l2 model, (∀ q ∈ l1, strContains q model = false) →
      strContains p model = true →
      chooseResourceId (l1 ++ p :: l2) model = p) ∧
    (∀ profiles model, (∀ q ∈ profiles, strContains q model = false) →
      chooseResourceId profiles model = model) ∧
    chooseResourceId ["foo-v2", "bar-v2"] "foo" = "foo-v2" ∧
    chooseResourceId [] "m1" = "m1" ∧
    (∀ stringify req r, buildAwsRequest stringify req = .ok r →
      r.path = "/model/" ++ chooseResourceId req.inferenceProfileIds req.model ++
        "/invoke" ++ (if req.stream then "-with-response-stream" else "")) := by
  refine ⟨chooseResourceId_first_match, chooseResourceId_no_match, rfl, rfl, ?_⟩
  intro stringify req r h
  cases hc : getCredentialParts req.keySecret req.keyHash with
  | error e => simp [buildAwsRequest, hc] at h
  | ok c =>
    cases hs : getStrictlyValidatedBodyForAws req.outboundApi req.body with
    | error e => simp [buildAwsRequest, hc, hs] at h
    | ok sanitized =>
      simp only [buildAwsRequest, hc, hs, exbind_ok, Except.ok.injEq] at h
      subst h
      rfl

/-- Witness for C3: with profiles `bar-v2, foo-v2` and model `foo`, the
first matching profile `foo-v2` is chosen. -/
theorem resource_identifier_selection_witness :
    chooseResourceId ["bar-v2", "foo-v2"] "foo" = "foo-v2" :=
  resource_identifier_selection.1 ["bar-v2"] "foo-v2" [] "foo"
    (by decide) (by decide)

/-- Claim C4: streaming requests get the `-with-response-stream` path and
the bedrock accept header and no generic accept header; non-streaming
requests get the plain invoke path and the generic accept header only;
exactly one of the two accept headers is present. -/
theorem streaming_toggles_path_and_accept :
    ∀ stringify req r, buildAwsRequest stringify req = .ok r →
      (req.stream = true →
        r.path = "/model/" ++ chooseResourceId req.inferenceProfileIds req.model ++
          "/invoke-with-response-stream" ∧
        hasHeader r "x-amzn-bedrock-accept" = true ∧ hasHeader r "accept" = false) ∧
      (req.stream = false →
        r.path = "/model/" ++ chooseResourceId req.inferenceProfileIds req.model ++
          "/invoke" ∧
        hasHeader r "accept" = true ∧ hasHeader r "x-amzn-bedrock-accept" = false) ∧
      hasHeader r "x-amzn-bedrock-accept" ≠ hasHeader r "accept" := by
  intro stringify req r h
  cases hc : getCredentialParts req.keySecret req.keyHash with
  | error e => simp [buildAwsRequest, hc] at h
  | ok c =>
    cases hs : getStrictlyValidatedBodyForAws req.outboundApi req.body with
    | error e => simp [buildAwsRequest, hc, hs] at h
    | ok sanitized =>
      simp only [buildAwsRequest, hc, hs, exbind_ok, Except.ok.injEq] at h
      subst h
      refine ⟨fun hstream => ?_, fun hstream => ?_, ?_⟩
      · simp only [hstream]
        refine ⟨?_, rfl, rfl⟩
        rw [String.append_assoc]
        rfl
      · simp only [hstream]
        refine ⟨?_, rfl, rfl⟩
        exact String.append_empty _
      · cases hstream : req.stream with
        | false =>
          show (false : Bool) ≠ true
          decide
        | true =>
          show (true : Bool) ≠ false
          decide

/-- Witness for C4 at the concrete streaming request. -/
theorem streaming_toggles_witness :
    sampleStreamingBuilt.path = "/model/m1/invoke-with-response-stream" ∧
    hasHeader sampleStreamingBuilt "x-amzn-bedrock-accept" = true ∧
    hasHeader sampleStreamingBuilt "accept" = false :=
  (streaming_toggles_path_and_accept (fun _ => "") sampleStreamingRequest
    sampleStreamingBuilt rfl).1 rfl

/-- The sanitizer at the text dialect, unfolded. -/
lemma getStrictly_text_def (b : Body) :
    getStrictlyValidatedBodyForAws "anthropic-text" b =
      (validateAnthropicTextPicked b >>= fun _ =>
        .ok (projectKeys anthropicTextKeys b)) := rfl

/-- The sanitizer at the chat dialect, unfolded. -/
lemma getStrictly_chat_def (b : Body) :
    getStrictlyValidatedBodyForAws "anthropic-chat" b =
      (validateAnthropicChatPicked b >>= fun _ =>
        .ok (projectKeys anthropicChatKeys b ++
          [("anthropic_version", anthropicVersionValue)])) := rfl

/-- The sanitizer at the mistral chat dialect, unfolded. -/
lemma getStrictly_mistralChat_def (b : Body) :
    getStrictlyValidatedBodyForAws "mistral-ai" b =
      (strictKeysCheck mistralChatKeys b >>= fun _ =>
        validateMistralChatFields b >>= fun _ => .ok b) := rfl

/-- The sanitizer at the mistral text dialect, unfolded. -/
lemma getStrictly_mistralText_def (b : Body) :
    getStrictlyValidatedBodyForAws "mistral-text" b =
      (strictKeysCheck mistralTextKeys b >>= fun _ =>
        validateMistralTextFields b >>= fun _ => .ok b) := rfl

/-- Projection preserves the lookup of every allow-listed key. -/
lemma lookupField_projectKeys_of_contains (allow : List String) (k : String) (b : Body)
    (h : allow.contains k = true) :
    lookupField k (projectKeys allow b) = lookupField k b := by
  induction b with
  | nil => rfl
  | cons kv rest ih =>
    obtain ⟨k1, v⟩ := kv
    by_cases hk : allow.contains k1 = true
    · simp only [projectKeys]
      rw [if_pos hk]
      simp only [lookupField]
      by_cases hkk : k1 = k
      · rw [if_pos hkk, if_pos hkk]
      · rw [if_neg hkk, if_neg hkk]
        exact ih
    · simp only [projectKeys]
      rw [if_neg hk]
      have hkk : k1 ≠ k := fun he => hk (he ▸ h)
      simp only [lookupField, if_neg hkk]
      exact ih

/-- Projection removes every key outside the allow-list. -/
lemma lookupField_projectKeys_of_not_contains (allow : List String) (k : String) (b : Body)
    (h : allow.contains k = false) :
    lookupField k (projectKeys allow b) = none := by
  induction b with
  | nil => rfl
  | cons kv rest ih =>
    obtain ⟨k1, v⟩ := kv
    by_cases hk : allow.contains k1 = true
    · simp only [projectKeys]
      rw [if_pos hk]
      have hkk : k1 ≠ k := fun he => by rw [he] at hk; rw [hk] at h; cases h
      simp only [lookupField, if_neg hkk]
      exact ih
    · simp only [projectKeys]
      rw [if_neg hk]
      exact ih

/-- Every key of a projected body is allow-listed. -/
lemma mem_bodyKeys_projectKeys (allow : List String) (k : String) (b : Body)
    (h : k ∈ bodyKeys (projectKeys allow b)) : allow.contains k = true := by
  induction b with
  | nil => cases h
  | cons kv rest ih =>
    obtain ⟨k1, v⟩ := kv
    by_cases hk : allow.contains k1 = true
    · simp only [projectKeys] at h
      rw [if_pos hk] at h
      rcases List.mem_cons.mp h with he | hm
      · rw [he]; exact hk
      · exact ih hm
    · simp only [projectKeys] at h
      rw [if_neg hk] at h
      exact ih h

/-- Projection distributes over list append. -/
lemma projectKeys_append (allow : List String) (b1 b2 : Body) :
    projectKeys allow (b1 ++ b2) = projectKeys allow b1 ++ projectKeys allow b2 := by
  induction b1 with
  | nil => rfl
  | cons kv rest ih =>
    obtain ⟨k1, v⟩ := kv
    by_cases hk : allow.contains k1 = true
    · rw [List.cons_append]
      simp only [projectKeys]
      rw [if_pos hk, if_pos hk, List.cons_append, ih]
    · rw [List.cons_append]
      simp only [projectKeys]
      rw [if_neg hk, if_neg hk, ih]

/-- Projection is idempotent. -/
lemma projectKeys_idem (allow : List String) (b : Body) :
    projectKeys allow (projectKeys allow b) = projectKeys allow b := by
  induction b with
  | nil => rfl
  | cons kv rest ih =>
    obtain ⟨k1, v⟩ := kv
    by_cases hk : allow.contains k1 = true
    · simp only [projectKeys]
      rw [if_pos hk]
      simp only [projectKeys]
      rw [if_pos hk, ih]
    · simp only [projectKeys]
      rw [if_neg hk, ih]

/-- A successful lookup survives appending on the right. -/
lemma lookupField_append_some (k : String) (b1 b2 : Body) (v : JsonValue)
    (h : lookupField k b1 = some v) :
    lookupField k (b1 ++ b2) = some v := by
  induction b1 with
  | nil => cases h
  | cons kv rest ih =>
    obtain ⟨k1, w⟩ := kv
    rw [List.cons_append]
    simp only [lookupField] at h ⊢
    by_cases hkk : k1 = k
    · rw [if_pos hkk] at h ⊢
      exact h
    · rw [if_neg hkk] at h ⊢
      exact ih h

/-- A failed lookup defers to the appended suffix. -/
lemma lookupField_append_none (k : String) (b1 b2 : Body)
    (h : lookupField k b1 = none) :
    lookupField k (b1 ++ b2) = lookupField k b2 := by
  induction b1 with
  | nil => rfl
  | cons kv rest ih =>
    obtain ⟨k1, w⟩ := kv
    rw [List.cons_append]
    simp only [lookupField] at h ⊢
    by_cases hkk : k1 = k
    · rw [if_pos hkk] at h
      cases h
    · rw [if_neg hkk] at h ⊢
      exact ih h

/-- Looking up an allow-listed key in the chat sanitizer output is the
same as looking it up in the original body. -/
lemma lookupField_chat_out (b : Body) (k : String) (v : JsonValue)
    (h : anthropicChatKeys.contains k = true) :
    lookupField k (projectKeys anthropicChatKeys b ++ [("anthropic_version", v)]) =
      lookupField k b := by
  have hkv : k ≠ "anthropic_version" := by
    intro he
    rw [he] at h
    exact absurd h (by decide)
  cases hl : lookupField k (projectKeys anthropicChatKeys b) with
  | some w =>
    rw [lookupField_append_some k _ _ w hl,
        ← lookupField_projectKeys_of_contains anthropicChatKeys k b h, hl]
  | none =>
    rw [lookupField_append_none k _ _ hl]
    have h2 : lookupField k [("anthropic_version", v)] = none := by
      simp only [lookupField]
      rw [if_neg (Ne.symm hkv)]
    rw [h2, ← lookupField_projectKeys_of_contains anthropicChatKeys k b h, hl]

/-- A required-field check depends only on the lookup of its key. -/
lemma checkReq_congr (b1 b2 : Body) (k : String) (p : JsonValue → Bool)
    (h : lookupField k b1 = lookupField k b2) :
    checkReq b1 k p = checkReq b2 k p := by
  unfold checkReq
  rw [h]

/-- An optional-field check depends only on the lookup of its key. -/
lemma checkOpt_congr (b1 b2 : Body) (k : String) (p : JsonValue → Bool)
    (h : lookupField k b1 = lookupField k b2) :
    checkOpt b1 k p = checkOpt b2 k p := by
  unfold checkOpt
  rw [h]

/-- Picked text-schema validation reads only allow-listed keys. -/
lemma validateAnthropicTextPicked_congr (b1 b2 : Body)
    (h : ∀ k, anthropicTextKeys.contains k = true →
      lookupField k b1 = lookupField k b2) :
    validateAnthropicTextPicked b1 = validateAnthropicTextPicked b2 := by
  have h1 := checkReq_congr b1 b2 "prompt" isStr (h _ (by decide))
  have h2 := checkReq_congr b1 b2 "max_tokens_to_sample" isNum (h _ (by decide))
  have h3 := checkOpt_congr b1 b2 "stop_sequences" isStrArr (h _ (by decide))
  have h4 := checkOpt_congr b1 b2 "temperature" isNum (h _ (by decide))
  have h5 := checkOpt_congr b1 b2 "top_k" isNum (h _ (by decide))
  have h6 := checkOpt_congr b1 b2 "top_p" isNum (h _ (by decide))
  simp only [validateAnthropicTextPicked, h1, h2, h3, h4, h5, h6]

/-- Picked chat-schema validation reads only allow-listed keys. -/
lemma validateAnthropicChatPicked_congr (b1 b2 : Body)
    (h : ∀ k, anthropicChatKeys.contains k = true →
      lookupField k b1 = lookupField k b2) :
    validateAnthropicChatPicked b1 = validateAnthropicChatPicked b2 := by
  have h1 := checkReq_congr b1 b2 "messages" isArr (h _ (by decide))
  have h2 := checkOpt_congr b1 b2 "system" isStr (h _ (by decide))
  have h3 := checkOpt_congr b1 b2 "max_tokens" isNum (h _ (by decide))
  have h4 := checkOpt_congr b1 b2 "stop_sequences" isStrArr (h _ (by decide))
  have h5 := checkOpt_congr b1 b2 "temperature" isNum (h _ (by decide))
  have h6 := checkOpt_congr b1 b2 "top_k" isNum (h _ (by decide))
  have h7 := checkOpt_congr b1 b2 "top_p" isNum (h _ (by decide))
  simp only [validateAnthropicChatPicked, h1, h2, h3, h4, h5, h6, h7]

/-- Destructuring a successful run of the text sanitizer. -/
lemma sanitizeText_ok_elim (b out : Body)
    (h : getStrictlyValidatedBodyForAws "anthropic-text" b = .ok out) :
    validateAnthropicTextPicked b = .ok () ∧
    out = projectKeys anthropicTextKeys b := by
  rw [getStrictly_text_def] at h
  cases hv : validateAnthropicTextPicked b with
  | error e =>
    rw [hv, exbind_error] at h
    simp at h
  | ok u =>
    cases u
    rw [hv, exbind_ok] at h
    injection h with h1
    exact ⟨rfl, h1.symm⟩

/-- Destructuring a successful run of the chat sanitizer. -/
lemma sanitizeChat_ok_elim (b out : Body)
    (h : getStrictlyValidatedBodyForAws "anthropic-chat" b = .ok out) :
    validateAnthropicChatPicked b = .ok () ∧
    out = projectKeys anthropicChatKeys b ++
      [("anthropic_version", anthropicVersionValue)] := by
  rw [getStrictly_chat_def] at h
  cases hv : validateAnthropicChatPicked b with
  | error e =>
    rw [hv, exbind_error] at h
    simp at h
  | ok u =>
    cases u
    rw [hv, exbind_ok] at h
    injection h with h1
    exact ⟨rfl, h1.symm⟩

/-- Destructuring a successful run of a mistral sanitizer branch. -/
lemma sanitizeMistral_ok_elim (allow : List String)
    (validate : Body → Except SignError Unit) (b out : Body)
    (h : (strictKeysCheck allow b >>= fun _ =>
        validate b >>= fun _ => .ok b) = .ok out) :
    strictKeysCheck allow b = .ok () ∧ validate b = .ok () ∧ out = b := by
  cases hs : strictKeysCheck allow b with
  | error e =>
    rw [hs, exbind_error] at h
    simp at h
  | ok u =>
    cases u
    rw [hs, exbind_ok] at h
    cases hv : validate b with
    | error e =>
      rw [hv, exbind_error] at h
      simp at h
    | ok u2 =>
      cases u2
      rw [hv, exbind_ok] at h
      injection h with h1
      exact ⟨rfl, rfl, h1.symm⟩

/-- A passing strict key check means every key is in the schema. -/
lemma strictKeysCheck_ok_forall (allow : List String) (b : Body)
    (h : strictKeysCheck allow b = .ok ()) :
    ∀ kv ∈ b, allow.contains kv.1 = true := by
  unfold strictKeysCheck at h
  cases hf : b.find? (fun kv => !(allow.contains kv.1)) with
  | some kv =>
    rw [hf] at h
    simp at h
  | none =>
    intro kv hkv
    have := List.find?_eq_none.mp hf kv hkv
    simpa using this

/-- A failing strict key check reports a validation error. -/
lemma strictKeysCheck_error_form (allow : List String) (b : Body) (e : SignError)
    (h : strictKeysCheck allow b = .error e) : ∃ k, e = .validationError k := by
  unfold strictKeysCheck at h
  cases hf : b.find? (fun kv => !(allow.contains kv.1)) with
  | some kv =>
    rw [hf] at h
    injection h with h1
    exact ⟨kv.1, h1.symm⟩
  | none =>
    rw [hf] at h
    simp at h

/-- Destructuring a successful bind of a unit-valued check. -/
lemma bind_ok_left {β : Type} (c : Except SignError Unit)
    (f : Unit → Except SignError β) (out : β)
    (h : (c >>= f) = .ok out) : c = .ok () ∧ f () = .ok out := by
  cases hc : c with
  | error e =>
    rw [hc, exbind_error] at h
    simp at h
  | ok u =>
    cases u
    rw [hc, exbind_ok] at h
    exact ⟨rfl, h⟩

/-- A failing bind of a unit-valued check fails on the left or on the
right with the same error. -/
lemma bind_error_form {β : Type} (c : Except SignError Unit)
    (f : Unit → Except SignError β) (e : SignError)
    (h : (c >>= f) = .error e) : c = .error e ∨ f () = .error e := by
  cases hc : c with
  | error e2 =>
    rw [hc, exbind_error] at h
    injection h with h1
    left
    rw [h1]
  | ok u =>
    cases u
    rw [hc, exbind_ok] at h
    exact Or.inr h

/-- A required-field check can only fail with the validation error of
its own key. -/
lemma checkReq_error_form (b : Body) (k : String) (p : JsonValue → Bool)
    (e : SignError) (h : checkReq b k p = .error e) : e = .validationError k := by
  simp only [checkReq] at h
  cases hl : lookupField k b with
  | none =>
    rw [hl] at h
    injection h with h1
    exact h1.symm
  | some v =>
    simp only [hl] at h
    by_cases hp : p v = true
    · rw [if_pos hp] at h
      simp at h
    · rw [if_neg hp] at h
      injection h with h1
      exact h1.symm

/-- An optional-field check can only fail with the validation error of
its own key. -/
lemma checkOpt_error_form (b : Body) (k : String) (p : JsonValue → Bool)
    (e : SignError) (h : checkOpt b k p = .error e) : e = .validationError k := by
  simp only [checkOpt] at h
  cases hl : lookupField k b with
  | none =>
    rw [hl] at h
    simp at h
  | some v =>
    simp only [hl] at h
    by_cases hp : p v = true
    · rw [if_pos hp] at h
      simp at h
    · rw [if_neg hp] at h
      injection h with h1
      exact h1.symm

/-- A passing mistral chat field validation means every per-field check
passed. -/
lemma validateMistralChatFields_ok_elim (b : Body)
    (h : validateMistralChatFields b = .ok ()) :
    checkReq b "messages" isArr = .ok () ∧
    checkOpt b "model" isStr = .ok () ∧
    checkOpt b "temperature" isNum = .ok () ∧
    checkOpt b "top_p" isNum = .ok () ∧
    checkOpt b "max_tokens" isNum = .ok () ∧
    checkOpt b "stream" isBool = .ok () ∧
    checkOpt b "stop" isStrArr = .ok () ∧
    checkOpt b "random_seed" isNum = .ok () ∧
    checkOpt b "safe_prompt" isBool = .ok () := by
  simp only [validateMistralChatFields] at h
  obtain ⟨c1, h⟩ := bind_ok_left _ _ _ h
  obtain ⟨c2, h⟩ := bind_ok_left _ _ _ h
  obtain ⟨c3, h⟩ := bind_ok_left _ _ _ h
  obtain ⟨c4, h⟩ := bind_ok_left _ _ _ h
  obtain ⟨c5, h⟩ := bind_ok_left _ _ _ h
  obtain ⟨c6, h⟩ := bind_ok_left _ _ _ h
  obtain ⟨c7, h⟩ := bind_ok_left _ _ _ h
  obtain ⟨c8, h⟩ := bind_ok_left _ _ _ h
  exact ⟨c1, c2, c3, c4, c5, c6, c7, c8, h⟩

/-- A passing mistral text field validation means every per-field check
passed. -/
lemma validateMistralTextFields_ok_elim (b : Body)
    (h : validateMistralTextFields b = .ok ()) :
    checkReq b "prompt" isStr = .ok () ∧
    checkOpt b "model" isStr = .ok () ∧
    checkOpt b "temperature" isNum = .ok () ∧
    checkOpt b "top_p" isNum = .ok () ∧
    checkOpt b "max_tokens" isNum = .ok () ∧
    checkOpt b "stop" isStrArr = .ok () := by
  simp only [validateMistralTextFields] at h
  obtain ⟨c1, h⟩ := bind_ok_left _ _ _ h
  obtain ⟨c2, h⟩ := bind_ok_left _ _ _ h
  obtain ⟨c3, h⟩ := bind_ok_left _ _ _ h
  obtain ⟨c4, h⟩ := bind_ok_left _ _ _ h
  obtain ⟨c5, h⟩ := bind_ok_left _ _ _ h
  exact ⟨c1, c2, c3, c4, c5, h⟩

/-- A failing mistral chat field validation carries a validation error. -/
lemma validateMistralChatFields_error_form (b : Body) (e : SignError)
    (h : validateMistralChatFields b = .error e) :
    ∃ k, e = .validationError k := by
  simp only [validateMistralChatFields] at h
  rcases bind_error_form _ _ _ h with h1 | h
  · exact ⟨"messages", checkReq_error_form b "messages" isArr e h1⟩
  rcases bind_error_form _ _ _ h with h1 | h
  · exact ⟨"model", checkOpt_error_form b "model" isStr e h1⟩
  rcases bind_error_form _ _ _ h with h1 | h
  · exact ⟨"temperature", checkOpt_error_form b "temperature" isNum e h1⟩
  rcases bind_error_form _ _ _ h with h1 | h
  · exact ⟨"top_p", checkOpt_error_form b "top_p" isNum e h1⟩
  rcases bind_error_form _ _ _ h with h1 | h
  · exact ⟨"max_tokens", checkOpt_error_form b "max_tokens" isNum e h1⟩
  rcases bind_error_form _ _ _ h with h1 | h
  · exact ⟨"stream", checkOpt_error_form b "stream" isBool e h1⟩
  rcases bind_error_form _ _ _ h with h1 | h
  · exact ⟨"stop", checkOpt_error_form b "stop" isStrArr e h1⟩
  rcases bind_error_form _ _ _ h with h1 | h
  · exact ⟨"random_seed", checkOpt_error_form b "random_seed" isNum e h1⟩
  exact ⟨"safe_prompt", checkOpt_error_form b "safe_prompt" isBool e h⟩

/-- A failing mistral text field validation carries a validation error. -/
lemma validateMistralTextFields_error_form (b : Body) (e : SignError)
    (h : validateMistralTextFields b = .error e) :
    ∃ k, e = .validationError k := by
  simp only [validateMistralTextFields] at h
  rcases bind_error_form _ _ _ h with h1 | h
  · exact ⟨"prompt", checkReq_error_form b "prompt" isStr e h1⟩
  rcases bind_error_form _ _ _ h with h1 | h
  · exact ⟨"model", checkOpt_error_form b "model" isStr e h1⟩
  rcases bind_error_form _ _ _ h with h1 | h
  · exact ⟨"temperature", checkOpt_error_form b "temperature" isNum e h1⟩
  rcases bind_error_form _ _ _ h with h1 | h
  · exact ⟨"top_p", checkOpt_error_form b "top_p" isNum e h1⟩
  rcases bind_error_form _ _ _ h with h1 | h
  · exact ⟨"max_tokens", checkOpt_error_form b "max_tokens" isNum e h1⟩
  exact ⟨"stop", checkOpt_error_form b "stop" isStrArr e h⟩

/-- Whenever the chat field validation cannot pass, the mistral chat
sanitizer outcome is a validation error, whichever check fails first. -/
lemma sanitize_mistralChat_isValidationError (b : Body)
    (h : validateMistralChatFields b = .ok () → False) :
    isValidationError (getStrictlyValidatedBodyForAws "mistral-ai" b) = true := by
  rw [getStrictly_mistralChat_def]
  cases hs : strictKeysCheck mistralChatKeys b with
  | error e =>
    obtain ⟨k, rfl⟩ := strictKeysCheck_error_form mistralChatKeys b e hs
    rw [exbind_error]
    rfl
  | ok u =>
    cases u
    rw [exbind_ok]
    cases hv : validateMistralChatFields b with
    | error e =>
      obtain ⟨k, rfl⟩ := validateMistralChatFields_error_form b e hv
      rw [exbind_error]
      rfl
    | ok u2 =>
      cases u2
      exact absurd hv h

/-- Whenever the text field validation cannot pass, the mistral text
sanitizer outcome is a validation error, whichever check fails first. -/
lemma sanitize_mistralText_isValidationError (b : Body)
    (h : validateMistralTextFields b = .ok () → False) :
    isValidationError (getStrictlyValidatedBodyForAws "mistral-text" b) = true := by
  rw [getStrictly_mistralText_def]
  cases hs : strictKeysCheck mistralTextKeys b with
  | error e =>
    obtain ⟨k, rfl⟩ := strictKeysCheck_error_form mistralTextKeys b e hs
    rw [exbind_error]
    rfl
  | ok u =>
    cases u
    rw [exbind_ok]
    cases hv : validateMistralTextFields b with
    | error e =>
      obtain ⟨k, rfl⟩ := validateMistralTextFields_error_form b e hv
      rw [exbind_error]
      rfl
    | ok u2 =>
      cases u2
      exact absurd hv h

/-- Claim C1: the text dialect output only holds picked keys and never
the version constant; the chat dialect output holds picked keys plus the
injected `anthropic_version` constant, whose value is fixed, and every
non-picked input field is absent; and the end-to-end chat scenario of
the spec holds, with `foo` dropped and the constant injected. -/
theorem anthropic_projection_spec :
    (∀ b out, getStrictlyValidatedBodyForAws "anthropic-text" b = .ok out →
      (∀ k, k ∈ bodyKeys out → anthropicTextKeys.contains k = true) ∧
      lookupField "anthropic_version" out = none) ∧
    (∀ b out, getStrictlyValidatedBodyForAws "anthropic-chat" b = .ok out →
      (∀ k, k ∈ bodyKeys out →
        anthropicChatKeys.contains k = true ∨ k = "anthropic_version") ∧
      lookupField "anthropic_version" out = some anthropicVersionValue ∧
      (∀ k, anthropicChatKeys.contains k = false → k ≠ "anthropic_version" →
        lookupField k out = none)) ∧
    getStrictlyValidatedBodyForAws "anthropic-chat"
      [("messages", .arr [.obj [("role", .str "user"), ("content", .str "hi")]]),
       ("temperature", .num 1), ("foo", .str "bar")] =
      .ok [("messages", .arr [.obj [("role", .str "user"), ("content", .str "hi")]]),
           ("temperature", .num 1),
           ("anthropic_version", anthropicVersionValue)] := by
  refine ⟨?_, ?_, rfl⟩
  · intro b out h
    obtain ⟨hv, rfl⟩ := sanitizeText_ok_elim b out h
    constructor
    · intro k hk
      exact mem_bodyKeys_projectKeys anthropicTextKeys k b hk
    · exact lookupField_projectKeys_of_not_contains anthropicTextKeys
        "anthropic_version" b (by decide)
  · intro b out h
    obtain ⟨hv, rfl⟩ := sanitizeChat_ok_elim b out h
    refine ⟨?_, ?_, ?_⟩
    · intro k hk
      simp only [bodyKeys, List.map_append] at hk
      rcases List.mem_append.mp hk with h1 | h2
      · exact Or.inl (mem_bodyKeys_projectKeys anthropicChatKeys k b h1)
      · right
        simpa using h2
    · have hn : lookupField "anthropic_version"
          (projectKeys anthropicChatKeys b) = none :=
        lookupField_projectKeys_of_not_contains anthropicChatKeys
          "anthropic_version" b (by decide)
      rw [lookupField_append_none _ _ _ hn]
      rfl
    · intro k hkc hkv
      have hn : lookupField k (projectKeys anthropicChatKeys b) = none :=
        lookupField_projectKeys_of_not_contains anthropicChatKeys k b hkc
      rw [lookupField_append_none _ _ _ hn]
      simp only [lookupField]
      rw [if_neg (Ne.symm hkv)]

/-- Witness for C1: the text sanitizer output of a concrete body has no
injected version constant. -/
theorem anthropic_projection_witness :
    lookupField "anthropic_version"
      [("prompt", JsonValue.str "p"), ("max_tokens_to_sample", JsonValue.num 5)] =
      none :=
  (anthropic_projection_spec.1
    [("prompt", .str "p"), ("max_tokens_to_sample", .num 5), ("junk", .num 3)]
    [("prompt", .str "p"), ("max_tokens_to_sample", .num 5)] rfl).2

/-- Claim C7: on every accepted body of every supported dialect the
sanitizer is idempotent — its output sanitizes to itself, the chat
constant being stripped and re-injected with the same value — and the
output never holds a key outside the allow-list of the dialect (for the
chat dialect, the allow-list extended by the injected constant). -/
theorem sanitizer_idempotent :
    (∀ b out, getStrictlyValidatedBodyForAws "anthropic-text" b = .ok out →
      getStrictlyValidatedBodyForAws "anthropic-text" out = .ok out) ∧
    (∀ b out, getStrictlyValidatedBodyForAws "anthropic-chat" b = .ok out →
      getStrictlyValidatedBodyForAws "anthropic-chat" out = .ok out) ∧
    (∀ b out, getStrictlyValidatedBodyForAws "mistral-ai" b = .ok out →
      getStrictlyValidatedBodyForAws "mistral-ai" out = .ok out) ∧
    (∀ b out, getStrictlyValidatedBodyForAws "mistral-text" b = .ok out →
      getStrictlyValidatedBodyForAws "mistral-text" out = .ok out) ∧
    (∀ b out, getStrictlyValidatedBodyForAws "anthropic-text" b = .ok out →
      ∀ k, k ∈ bodyKeys out → anthropicTextKeys.contains k = true) ∧
    (∀ b out, getStrictlyValidatedBodyForAws "anthropic-chat" b = .ok out →
      ∀ k, k ∈ bodyKeys out →
        anthropicChatKeys.contains k = true ∨ k = "anthropic_version") ∧
    (∀ b out, getStrictlyValidatedBodyForAws "mistral-ai" b = .ok out →
      ∀ k, k ∈ bodyKeys out → mistralChatKeys.contains k = true) ∧
    (∀ b out, getStrictlyValidatedBodyForAws "mistral-text" b = .ok out →
      ∀ k, k ∈ bodyKeys out → mistralTextKeys.contains k = true) := by
  refine ⟨?_, ?_, ?_, ?_, ?_, ?_, ?_, ?_⟩
  · intro b out h
    obtain ⟨hv, rfl⟩ := sanitizeText_ok_elim b out h
    have hv2 : validateAnthropicTextPicked (projectKeys anthropicTextKeys b) =
        .ok () := by
      rw [validateAnthropicTextPicked_congr (projectKeys anthropicTextKeys b) b
        (fun k hk => lookupField_projectKeys_of_contains anthropicTextKeys k b hk)]
      exact hv
    rw [getStrictly_text_def, hv2, exbind_ok, projectKeys_idem]
  · intro b out h
    obtain ⟨hv, rfl⟩ := sanitizeChat_ok_elim b out h
    have hv2 : validateAnthropicChatPicked (projectKeys anthropicChatKeys b ++
        [("anthropic_version", anthropicVersionValue)]) = .ok () := by
      rw [validateAnthropicChatPicked_congr _ b
        (fun k hk => lookupField_chat_out b k anthropicVersionValue hk)]
      exact hv
    have he : projectKeys anthropicChatKeys
        [("anthropic_version", anthropicVersionValue)] = ([] : Body) := rfl
    rw [getStrictly_chat_def, hv2, exbind_ok, projectKeys_append, projectKeys_idem,
        he, List.append_nil]
  · intro b out h
    rw [getStrictly_mistralChat_def] at h
    obtain ⟨hs, hv, rfl⟩ :=
      sanitizeMistral_ok_elim mistralChatKeys validateMistralChatFields b out h
    rw [getStrictly_mistralChat_def, hs, exbind_ok, hv, exbind_ok]
  · intro b out h
    rw [getStrictly_mistralText_def] at h
    obtain ⟨hs, hv, rfl⟩ :=
      sanitizeMistral_ok_elim mistralTextKeys validateMistralTextFields b out h
    rw [getStrictly_mistralText_def, hs, exbind_ok, hv, exbind_ok]
  · intro b out h k hk
    obtain ⟨hv, rfl⟩ := sanitizeText_ok_elim b out h
    exact mem_bodyKeys_projectKeys anthropicTextKeys k b hk
  · intro b out h k hk
    obtain ⟨hv, rfl⟩ := sanitizeChat_ok_elim b out h
    simp only [bodyKeys, List.map_append] at hk
    rcases List.mem_append.mp hk with h1 | h2
    · exact Or.inl (mem_bodyKeys_projectKeys anthropicChatKeys k b h1)
    · right
      simpa using h2
  · intro b out h k hk
    rw [getStrictly_mistralChat_def] at h
    obtain ⟨hs, hv, rfl⟩ :=
      sanitizeMistral_ok_elim mistralChatKeys validateMistralChatFields b out h
    simp only [bodyKeys] at hk
    obtain ⟨kv, hkv, heq⟩ := List.mem_map.mp hk
    rw [← heq]
    exact strictKeysCheck_ok_forall mistralChatKeys out hs kv hkv
  · intro b out h k hk
    rw [getStrictly_mistralText_def] at h
    obtain ⟨hs, hv, rfl⟩ :=
      sanitizeMistral_ok_elim mistralTextKeys validateMistralTextFields b out h
    simp only [bodyKeys] at hk
    obtain ⟨kv, hkv, heq⟩ := List.mem_map.mp hk
    rw [← heq]
    exact strictKeysCheck_ok_forall mistralTextKeys out hs kv hkv

/-- Witness for C7: re-sanitizing the text sanitizer output of a
concrete body reproduces it. -/
theorem sanitizer_idempotent_witness :
    getStrictlyValidatedBodyForAws "anthropic-text"
      [("prompt", JsonValue.str "p"), ("max_tokens_to_sample", JsonValue.num 5)] =
      .ok [("prompt", JsonValue.str "p"), ("max_tokens_to_sample", JsonValue.num 5)] :=
  sanitizer_idempotent.1
    [("prompt", .str "p"), ("max_tokens_to_sample", .num 5), ("foo", .str "x")]
    [("prompt", .str "p"), ("max_tokens_to_sample", .num 5)] rfl

/-- Claim C8: the mistral dialects are strict — any extraneous field,
any missing required field (`messages` for chat, `prompt` for text), and
any field present with an invalid type per the per-field schema
predicate yields a validation error in either dialect; an accepted body
passes through unchanged (nothing is silently dropped); and a sanitizer
error propagates to the whole mutator outcome. -/
theorem mistral_strict_validation :
    (∀ b kv, kv ∈ b → mistralChatKeys.contains kv.1 = false →
      isValidationError (getStrictlyValidatedBodyForAws "mistral-ai" b) = true) ∧
    (∀ b kv, kv ∈ b → mistralTextKeys.contains kv.1 = false →
      isValidationError (getStrictlyValidatedBodyForAws "mistral-text" b) = true) ∧
    (∀ b, lookupField "messages" b = none →
      isValidationError (getStrictlyValidatedBodyForAws "mistral-ai" b) = true) ∧
    (∀ b, lookupField "prompt" b = none →
      isValidationError (getStrictlyValidatedBodyForAws "mistral-text" b) = true) ∧
    (∀ b k v, lookupField k b = some v → mistralChatFieldType k v = false →
      isValidationError (getStrictlyValidatedBodyForAws "mistral-ai" b) = true) ∧
    (∀ b k v, lookupField k b = some v → mistralTextFieldType k v = false →
      isValidationError (getStrictlyValidatedBodyForAws "mistral-text" b) = true) ∧
    (∀ b out, getStrictlyValidatedBodyForAws "mistral-ai" b = .ok out → out = b) ∧
    (∀ b out, getStrictlyValidatedBodyForAws "mistral-text" b = .ok out → out = b) ∧
    (∀ stringify req e c, getCredentialParts req.keySecret req.keyHash = .ok c →
      getStrictlyValidatedBodyForAws req.outboundApi req.body = .error e →
      buildAwsRequest stringify req = .error e) := by
  refine ⟨?_, ?_, ?_, ?_, ?_, ?_, ?_, ?_, ?_⟩
  · intro b kv hkv hc
    have hpred : (!(mistralChatKeys.contains kv.1)) = true := by rw [hc]; rfl
    have hsome : (b.find? (fun kv => !(mistralChatKeys.contains kv.1))).isSome =
        true := List.find?_isSome.mpr ⟨kv, hkv, hpred⟩
    obtain ⟨kv0, hf⟩ := Option.isSome_iff_exists.mp hsome
    have hstrict : strictKeysCheck mistralChatKeys b =
        .error (.validationError kv0.1) := by
      unfold strictKeysCheck
      rw [hf]
    rw [getStrictly_mistralChat_def, hstrict, exbind_error]
    rfl
  · intro b kv hkv hc
    have hpred : (!(mistralTextKeys.contains kv.1)) = true := by rw [hc]; rfl
    have hsome : (b.find? (fun kv => !(mistralTextKeys.contains kv.1))).isSome =
        true := List.find?_isSome.mpr ⟨kv, hkv, hpred⟩
    obtain ⟨kv0, hf⟩ := Option.isSome_iff_exists.mp hsome
    have hstrict : strictKeysCheck mistralTextKeys b =
        .error (.validationError kv0.1) := by
      unfold strictKeysCheck
      rw [hf]
    rw [getStrictly_mistralText_def, hstrict, exbind_error]
    rfl
  · intro b hnone
    apply sanitize_mistralChat_isValidationError
    intro hok
    have c1 := (validateMistralChatFields_ok_elim b hok).1
    simp [checkReq, hnone] at c1
  · intro b hnone
    apply sanitize_mistralText_isValidationError
    intro hok
    have c1 := (validateMistralTextFields_ok_elim b hok).1
    simp [checkReq, hnone] at c1
  · intro b k v hlook htype
    apply sanitize_mistralChat_isValidationError
    intro hok
    obtain ⟨c1, c2, c3, c4, c5, c6, c7, c8, c9⟩ :=
      validateMistralChatFields_ok_elim b hok
    by_cases e1 : k = "messages"
    · subst e1
      have ht : isArr v = false := htype
      simp [checkReq, hlook, ht] at c1
    by_cases e2 : k = "model"
    · subst e2
      have ht : isStr v = false := htype
      simp [checkOpt, hlook, ht] at c2
    by_cases e3 : k = "temperature"
    · subst e3
      have ht : isNum v = false := htype
      simp [checkOpt, hlook, ht] at c3
    by_cases e4 : k = "top_p"
    · subst e4
      have ht : isNum v = false := htype
      simp [checkOpt, hlook, ht] at c4
    by_cases e5 : k = "max_tokens"
    · subst e5
      have ht : isNum v = false := htype
      simp [checkOpt, hlook, ht] at c5
    by_cases e6 : k = "stream"
    · subst e6
      have ht : isBool v = false := htype
      simp [checkOpt, hlook, ht] at c6
    by_cases e7 : k = "stop"
    · subst e7
      have ht : isStrArr v = false := htype
      simp [checkOpt, hlook, ht] at c7
    by_cases e8 : k = "random_seed"
    · subst e8
      have ht : isNum v = false := htype
      simp [checkOpt, hlook, ht] at c8
    by_cases e9 : k = "safe_prompt"
    · subst e9
      have ht : isBool v = false := htype
      simp [checkOpt, hlook, ht] at c9
    have htrue : mistralChatFieldType k v = true := by
      simp only [mistralChatFieldType]
      rw [if_neg e1, if_neg e2, if_neg e3, if_neg e4, if_neg e5, if_neg e6,
          if_neg e7, if_neg e8, if_neg e9]
    rw [htrue] at htype
    exact Bool.noConfusion htype
  · intro b k v hlook htype
    apply sanitize_mistralText_isValidationError
    intro hok
    obtain ⟨c1, c2, c3, c4, c5, c6⟩ := validateMistralTextFields_ok_elim b hok
    by_cases e1 : k = "prompt"
    · subst e1
      have ht : isStr v = false := htype
      simp [checkReq, hlook, ht] at c1
    by_cases e2 : k = "model"
    · subst e2
      have ht : isStr v = false := htype
      simp [checkOpt, hlook, ht] at c2
    by_cases e3 : k = "temperature"
    · subst e3
      have ht : isNum v = false := htype
      simp [checkOpt, hlook, ht] at c3
    by_cases e4 : k = "top_p"
    · subst e4
      have ht : isNum v = false := htype
      simp [checkOpt, hlook, ht] at c4
    by_cases e5 : k = "max_tokens"
    · subst e5
      have ht : isNum v = false := htype
      simp [checkOpt, hlook, ht] at c5
    by_cases e6 : k = "stop"
    · subst e6
      have ht : isStrArr v = false := htype
      simp [checkOpt, hlook, ht] at c6
    have htrue : mistralTextFieldType k v = true := by
      simp only [mistralTextFieldType]
      rw [if_neg e1, if_neg e2, if_neg e3, if_neg e4, if_neg e5, if_neg e6]
    rw [htrue] at htype
    exact Bool.noConfusion htype
  · intro b out h
    rw [getStrictly_mistralChat_def] at h
    obtain ⟨hs, hv, ho⟩ :=
      sanitizeMistral_ok_elim mistralChatKeys validateMistralChatFields b out h
    exact ho
  · intro b out h
    rw [getStrictly_mistralText_def] at h
    obtain ⟨hs, hv, ho⟩ :=
      sanitizeMistral_ok_elim mistralTextKeys validateMistralTextFields b out h
    exact ho
  · intro stringify req e c hc hs
    simp only [buildAwsRequest, hc, exbind_ok, hs, exbind_error]

/-- Witness for C8: a body with the extraneous field `weird` is rejected
with a validation error by the mistral chat dialect. -/
theorem mistral_strict_validation_witness :
    isValidationError (getStrictlyValidatedBodyForAws "mistral-ai"
      [("messages", JsonValue.arr []), ("weird", JsonValue.num 1)]) = true :=
  mistral_strict_validation.1
    [("messages", .arr []), ("weird", .num 1)] ("weird", .num 1)
    (List.mem_cons_of_mem _ (List.mem_cons_self _ _)) (by decide)

/-- String append is left-cancellative. -/
lemma strAppend_left_cancel (s a b : String) (h : s ++ a = s ++ b) : a = b := by
  have hd : s.data ++ a.data = s.data ++ b.data := by
    have hc := congrArg String.data h
    simpa [String.data_append] using hc
  exact String.ext (List.append_cancel_left hd)

/-- The identity digest stand-in is injective. -/
lemma idHash_injective : Function.Injective idHash := by
  intro a b h
  exact h

/-- The tagging keyed-hash stand-in is injective in its message for
every key. -/
lemma tagHmac_injective (k : String) : Function.Injective (tagHmac k) := by
  intro a b h
  exact strAppend_left_cancel (k ++ ":") a b h

/-- Claim C6: with the digest injective and the keyed hash injective per
key (the collision-resistance assumption the protocol inherits from the
underlying digest), signing is deterministic in all of method, path,
headers, body, credential and timestamp, and any change of the body
bytes changes the signature. -/
theorem signer_deterministic_and_body_sensitive :
    ∀ (hash : String → String) (hmac : String → String → String),
      Function.Injective hash → (∀ k, Function.Injective (hmac k)) →
      ∀ (cred : Credential) (date timestamp method path query headerLines
          signedHeaders b1 b2 : String),
      (b1 = b2 →
        authorizationHeader hash hmac cred date timestamp method path query
          headerLines signedHeaders b1 =
        authorizationHeader hash hmac cred date timestamp method path query
          headerLines signedHeaders b2 ∧
        computeSignature hash hmac cred date timestamp method path query
          headerLines signedHeaders b1 =
        computeSignature hash hmac cred date timestamp method path query
          headerLines signedHeaders b2) ∧
      (b1 ≠ b2 →
        computeSignature hash hmac cred date timestamp method path query
          headerLines signedHeaders b1 ≠
        computeSignature hash hmac cred date timestamp method path query
          headerLines signedHeaders b2) := by
  intro hash hmac hinj hmInj cred date timestamp method path query hl sh b1 b2
  constructor
  · intro he
    rw [he]
    exact ⟨rfl, rfl⟩
  · intro hne hcontra
    apply hne
    simp only [computeSignature] at hcontra
    have h1 := hmInj _ hcontra
    simp only [stringToSign] at h1
    have h2 := strAppend_left_cancel _ _ _ h1
    have h3 := hinj h2
    simp only [canonicalRequest] at h3
    have h4 := strAppend_left_cancel _ _ _ h3
    exact hinj h4

/-- Witness for C6: under the concrete injective digest and keyed hash,
the bodies `a` and `b` sign differently. -/
theorem signer_witness :
    computeSignature idHash tagHmac ⟨"AK", "SK", "r"⟩ "d" "t" "POST" "/p" "" "" ""
      "a" ≠
    computeSignature idHash tagHmac ⟨"AK", "SK", "r"⟩ "d" "t" "POST" "/p" "" "" ""
      "b" :=
  (signer_deterministic_and_body_sensitive idHash tagHmac idHash_injective
    tagHmac_injective ⟨"AK", "SK", "r"⟩ "d" "t" "POST" "/p" "" "" "" "a" "b").2
    (by decide)
